import Mathlib

/-!
Shallow embedding of `src/agent/core/scheduler.py` (module `SchedulerModule`):
scheduled tasks, the dispatcher `_execute_task`, events `emit_event`,
workflows `run_workflow`, task management, result history, and the
`to_dict`/`from_dict` snapshot serialization.

Modelling conventions:
- Python timestamps (`datetime.now()`) are modelled by a `clock : Nat`
  counter in the state; each call to `now()` returns the counter and
  advances it.  `isoformat`/`fromisoformat` are modelled as the identity
  on these counters.
- Python dicts are association lists (insertion ordered, first match on
  lookup, as for dicts with unique keys).
- Action handlers (`self._actions`) are an external environment
  `ActionEnv`; invoking a handler either returns a value or raises,
  modelled by `ActOutcome`.
- `_save_tasks`, the APScheduler job store, and logging are external
  side effects with no influence on the in-memory state modelled here;
  they are omitted.  In particular `_schedule_task`'s `next_run` update
  comes from the external job store and is not modelled.
- `_execute_task` recurses through dependencies and retries; the Python
  recursion has no termination guarantee, so the embedding is fuel
  indexed: `none` marks fuel exhaustion (divergence), `some` a normal
  Python return.
-/

/-- Values stored in `action_params` / `trigger_config` / event data. -/
inductive Val where
  | vnull
  | vstr (s : String)
  | vint (n : Int)
  | vbool (b : Bool)
deriving DecidableEq, Repr

/-- Keyword-parameter maps (`Dict[str, Any]`). -/
abbrev Params := List (String × Val)

/-- `TaskStatus` from the source. -/
inductive TaskStatus where
  | pending
  | running
  | completed
  | failed
  | cancelled
deriving DecidableEq, Repr

/-- `TriggerType` from the source. -/
inductive TriggerType where
  | cron
  | interval
  | date
  | event
  | condition
  | startup
deriving DecidableEq, Repr

/-- `TaskResult` dataclass. `duration` is `end_time - start_time`. -/
structure TaskResult where
  task_id : String
  status : TaskStatus
  start_time : Nat
  end_time : Option Nat := none
  result : Option Val := none
  error : Option String := none
  duration : Nat := 0
deriving DecidableEq, Repr

/-- `ScheduledTask` dataclass, with the source's field names and defaults. -/
structure ScheduledTask where
  id : String
  name : String
  description : String
  trigger_type : TriggerType
  trigger_config : Params
  action : String
  action_params : Params := []
  enabled : Bool := true
  created_at : Nat := 0
  last_run : Option Nat := none
  next_run : Option Nat := none
  run_count : Int := 0
  max_runs : Option Int := none
  retry_on_fail : Bool := true
  retry_count : Int := 3
  retry_delay : Int := 60
  tags : List String := []
  dependencies : List String := []
deriving DecidableEq, Repr

/-- One workflow step dict: `{"task_id": .., "on_success": .., "on_failure": .., "name": ..}`.
`on_success`/`on_failure` values are read with `.get`, so they may be a
string, an int, or absent (`None`). -/
inductive Sel where
  | absent
  | str (v : String)
  | int (i : Int)
deriving DecidableEq, Repr

structure WfStep where
  task_id : String
  name : Option String := none
  on_success : Sel := .absent
  on_failure : Sel := .absent
deriving DecidableEq, Repr

/-- `Workflow` dataclass. -/
structure Workflow where
  id : String
  name : String
  description : String
  steps : List WfStep
  enabled : Bool := true
deriving DecidableEq, Repr

/-- The mutable state of `SchedulerModule` (underscore prefixes of the
Python attributes dropped): `_tasks`, `_workflows`, `_event_handlers`,
`_results`, plus the modelled clock. -/
structure SchedulerModule where
  tasks : List (String × ScheduledTask) := []
  workflows : List (String × Workflow) := []
  event_handlers : List (String × List String) := []
  results : List TaskResult := []
  clock : Nat := 0
deriving DecidableEq, Repr

/-- Outcome of calling an action handler: normal return or raised exception. -/
inductive ActOutcome where
  | ok (v : Val)
  | err (msg : String)
deriving DecidableEq, Repr

/-- The action registry `self._actions`: name to handler; a handler takes
the keyword parameters and returns or raises. -/
abbrev ActionEnv := String → Option (Params → ActOutcome)

/-- Association-list lookup, modelling `dict.get`. -/
def alookup {α : Type} : List (String × α) → String → Option α
  | [], _ => none
  | (k, v) :: rest, key => if k = key then some v else alookup rest key

/-- `dict[key] = value`: replace in place if present, else append. -/
def setKey {α : Type} (m : List (String × α)) (key : String) (v : α) :
    List (String × α) :=
  if (alookup m key).isSome then
    m.map fun p => (p.1, if p.1 = key then v else p.2)
  else m ++ [(key, v)]

/-- In-place mutation of the task object registered under `tid`. -/
def updateTask (m : List (String × ScheduledTask)) (tid : String)
    (f : ScheduledTask → ScheduledTask) : List (String × ScheduledTask) :=
  m.map fun p => (p.1, if p.1 = tid then f p.2 else p.2)

/-- `self._tasks.get(task_id)`. -/
def lookupTask (m : List (String × ScheduledTask)) (tid : String) :
    Option ScheduledTask :=
  alookup m tid

/-- The admission guard `if task.max_runs and task.run_count >= task.max_runs`:
`max_runs` is truthy when set and non-zero. -/
def maxRunsReached (t : ScheduledTask) : Bool :=
  match t.max_runs with
  | none => false
  | some m => m != 0 && decide (m ≤ t.run_count)

/-- `self._results.append(result)` followed by the overflow trim
`if len(self._results) > 1000: self._results = self._results[-500:]`. -/
def appendResult (rs : List TaskResult) (r : TaskResult) : List TaskResult :=
  let rs' := rs ++ [r]
  if rs'.length > 1000 then rs'.drop (rs'.length - 500) else rs'

/-- Observable steps of a dispatcher execution: an action-handler
invocation (with a snapshot of the task map at that moment) and the
retry suspension `await asyncio.sleep(task.retry_delay)`. -/
inductive Ev where
  | invoke (tid : String) (snapshot : List (String × ScheduledTask))
  | sleepEv (delay : Int)
deriving DecidableEq, Repr

/-- `task.last_run = start_time; task.run_count += 1`. -/
def bumpRun (start : Nat) (t : ScheduledTask) : ScheduledTask :=
  { t with last_run := some start, run_count := t.run_count + 1 }

/-- `task.enabled = False` (the mutation done by `disable_task`). -/
def disableFlag (t : ScheduledTask) : ScheduledTask :=
  { t with enabled := false }

/-- `task.retry_count -= 1`. -/
def decRetry (t : ScheduledTask) : ScheduledTask :=
  { t with retry_count := t.retry_count - 1 }

/-- The finalized `TaskResult` of one attempt. -/
def attemptResult (tid : String) (st : TaskStatus) (start endT : Nat)
    (rv : Option Val) (emsg : Option String) : TaskResult :=
  { task_id := tid, status := st, start_time := start,
    end_time := some endT, result := rv, error := emsg,
    duration := endT - start }

/-- End of a dispatcher attempt: stamp `end_time`/`duration`, set
`last_run`/`run_count` on the task, append the result to the log. -/
def finalizeTask (s : SchedulerModule) (tid : String) (start : Nat)
    (st : TaskStatus) (rv : Option Val) (emsg : Option String) :
    SchedulerModule × TaskResult :=
  let res := attemptResult tid st start s.clock rv emsg
  let m := updateTask s.tasks tid (bumpRun start)
  let s₁ := { s with clock := s.clock + 1, tasks := m }
  ({ s₁ with results := appendResult s₁.results res }, res)

/-- The dependency loop of `_execute_task`:
`for dep_id in task.dependencies:` run any registered dependency whose
`last_run` is unset, via the dispatcher (passed in as `step`); return
values of the dependency executions are discarded. -/
def execDeps (step : SchedulerModule → String →
    Option (SchedulerModule × Option TaskResult × List Ev)) :
    List String → SchedulerModule → Option (SchedulerModule × List Ev)
  | [], s => some (s, [])
  | d :: ds, s =>
    match lookupTask s.tasks d with
    | some dt =>
      if dt.last_run.isNone then
        match step s d with
        | none => none
        | some (s', _, tr) =>
          match execDeps step ds s' with
          | none => none
          | some (s'', tr') => some (s'', tr ++ tr')
      else execDeps step ds s
    | none => execDeps step ds s

/-- `SchedulerModule._execute_task`, fuel indexed.  Returns the state
after the call, the Python return value (`None` or the `TaskResult`),
and the trace of observable steps; `none` is fuel exhaustion. -/
def execute_task (A : ActionEnv) :
    Nat → SchedulerModule → String →
    Option (SchedulerModule × Option TaskResult × List Ev)
  | 0, _, _ => none
  | fuel + 1, s, tid =>
    match lookupTask s.tasks tid with
    | none => some (s, none, [])
    | some task =>
      if maxRunsReached task then
        -- self.disable_task(task_id); return
        some ({ s with tasks := updateTask s.tasks tid disableFlag }, none, [])
      else
        let start := s.clock
        let s₀ := { s with clock := s.clock + 1 }
        match execDeps (execute_task A fuel) task.dependencies s₀ with
        | none => none
        | some (s₁, tr₀) =>
          -- the Python `task` binding is the shared mutable object in the
          -- map; it is never removed during execution, so field reads
          -- after the dependency loop are re-fetches from the map
          match lookupTask s₁.tasks tid with
          | none => some (s₁, none, tr₀)
          | some task₁ =>
            match A task₁.action with
            | none =>
              let fs := finalizeTask s₁ tid start .failed none
                (some ("Nieznana akcja: " ++ task₁.action))
              some (fs.1, some fs.2, tr₀)
            | some f =>
              let tr₁ := tr₀ ++ [Ev.invoke tid s₁.tasks]
              match f task₁.action_params with
              | .ok v =>
                let fs := finalizeTask s₁ tid start .completed (some v) none
                some (fs.1, some fs.2, tr₁)
              | .err m =>
                if task₁.retry_on_fail && decide (0 < task₁.retry_count) then
                  let s₂ := { s₁ with tasks := updateTask s₁.tasks tid decRetry }
                  match execute_task A fuel s₂ tid with
                  | none => none
                  | some (s₃, r₃, tr₃) =>
                    some (s₃, r₃, tr₁ ++ Ev.sleepEv task₁.retry_delay :: tr₃)
                else
                  let fs := finalizeTask s₁ tid start .failed none (some m)
                  some (fs.1, some fs.2, tr₁)

/-- `SchedulerModule.on_event`: append the task id to the subscriber list. -/
def on_event (s : SchedulerModule) (event_name : String) (tid : String) :
    SchedulerModule :=
  match alookup s.event_handlers event_name with
  | none => { s with event_handlers := s.event_handlers ++ [(event_name, [tid])] }
  | some l =>
    let hs := setKey s.event_handlers event_name (l ++ [tid])
    { s with event_handlers := hs }

/-- The subscriber loop of `emit_event`: for each subscribed id, if the
task exists and is enabled, store the event data in
`action_params["event_data"]` and dispatch.  Returns the final state and,
for each dispatched subscriber, its id with the parameter map it was
dispatched with. -/
def emitLoop (A : ActionEnv) (fuel : Nat) (d : Val) :
    List String → SchedulerModule →
    Option (SchedulerModule × List (String × Params))
  | [], s => some (s, [])
  | tid :: rest, s =>
    match lookupTask s.tasks tid with
    | some t =>
      if t.enabled then
        let ps := setKey t.action_params "event_data" d
        let m := updateTask s.tasks tid
          (fun u => { u with action_params := setKey u.action_params "event_data" d })
        match execute_task A fuel { s with tasks := m } tid with
        | none => none
        | some (s₂, _, _) =>
          match emitLoop A fuel d rest s₂ with
          | none => none
          | some (s₃, ds) => some (s₃, (tid, ps) :: ds)
      else emitLoop A fuel d rest s
    | none => emitLoop A fuel d rest s

/-- `SchedulerModule.emit_event`. -/
def emit_event (A : ActionEnv) (fuel : Nat) (s : SchedulerModule)
    (event_name : String) (d : Val) :
    Option (SchedulerModule × List (String × Params)) :=
  emitLoop A fuel d ((alookup s.event_handlers event_name).getD []) s

/-- Result of `run_workflow`: a normal return of the accumulated
results, an exception escaping to the caller (`result.status` on `None`,
or an out-of-range negative list index), or fuel exhaustion. -/
inductive WfOut where
  | ok (s : SchedulerModule) (rs : List TaskResult)
  | raised (s : SchedulerModule)
  | fuelOut
deriving DecidableEq, Repr

/-- `workflow.steps[current_step]` with Python list-index semantics:
non-negative indexes directly, negative indexes from the end, and an
out-of-range negative index raises `IndexError`. -/
def stepAt (steps : List WfStep) (i : Int) : Option WfStep :=
  if 0 ≤ i then steps.get? i.toNat
  else if 0 ≤ (steps.length : Int) + i then steps.get? ((steps.length : Int) + i).toNat
  else none

/-- The `while current_step < len(workflow.steps)` loop of `run_workflow`,
fuel indexed over loop iterations. -/
def wfLoop (A : ActionEnv) (taskFuel : Nat) (steps : List WfStep) :
    Nat → Int → SchedulerModule → List TaskResult → WfOut
  | 0, _, _, _ => .fuelOut
  | n + 1, cur, s, acc =>
    if cur < (steps.length : Int) then
      match stepAt steps cur with
      | none => .raised s
      | some step =>
        match execute_task A taskFuel s step.task_id with
        | none => .fuelOut
        | some (s', ores, _) =>
          match ores with
          | none => .raised s'
          | some res =>
            let acc' := acc ++ [res]
            let nxt := if res.status == .completed then step.on_success
                       else step.on_failure
            match nxt with
            | .absent => .ok s' acc'
            | .str nm =>
              if nm == "stop" then .ok s' acc'
              else if nm == "next" then wfLoop A taskFuel steps n (cur + 1) s' acc'
              else
                match steps.findIdx? (fun st => st.name == some nm) with
                | some i => wfLoop A taskFuel steps n (i : Int) s' acc'
                | none => .ok s' acc'
            | .int i => wfLoop A taskFuel steps n i s' acc'
    else .ok s acc

/-- `SchedulerModule.run_workflow`.  A missing workflow returns `[]`. -/
def run_workflow (A : ActionEnv) (taskFuel wfFuel : Nat)
    (s : SchedulerModule) (workflow_id : String) : WfOut :=
  match alookup s.workflows workflow_id with
  | none => .ok s []
  | some wf => wfLoop A taskFuel wf.steps wfFuel 0 s []

/-- `SchedulerModule.remove_task`: pop the entry if present. -/
def remove_task (s : SchedulerModule) (tid : String) : Bool × SchedulerModule :=
  match lookupTask s.tasks tid with
  | none => (false, s)
  | some _ => (true, { s with tasks := s.tasks.filter (fun p => decide (p.1 ≠ tid)) })

/-- `SchedulerModule.get_task`. -/
def get_task (s : SchedulerModule) (tid : String) : Option ScheduledTask :=
  lookupTask s.tasks tid

/-- `SchedulerModule.enable_task`: set `enabled` and re-schedule (the
APScheduler re-registration and its `next_run` refresh are external). -/
def enable_task (s : SchedulerModule) (tid : String) : Bool × SchedulerModule :=
  match lookupTask s.tasks tid with
  | none => (false, s)
  | some _ =>
    (true, { s with tasks := updateTask s.tasks tid (fun t => { t with enabled := true }) })

/-- `SchedulerModule.disable_task`: clear `enabled` and drop the
external scheduler job. -/
def disable_task (s : SchedulerModule) (tid : String) : Bool × SchedulerModule :=
  match lookupTask s.tasks tid with
  | none => (false, s)
  | some _ =>
    (true, { s with tasks := updateTask s.tasks tid (fun t => { t with enabled := false }) })

/-- The serialized form of a task: exactly the keys written by
`ScheduledTask.to_dict` (note: `next_run`, `retry_on_fail`,
`retry_count` and `retry_delay` are not among them).  ISO-8601
timestamps are modelled by the clock values themselves. -/
structure TaskDict where
  id : String
  name : String
  description : String
  trigger_type : String
  trigger_config : Params
  action : String
  action_params : Params
  enabled : Bool
  created_at : Nat
  last_run : Option Nat
  run_count : Int
  max_runs : Option Int
  tags : List String
  dependencies : List String
deriving DecidableEq, Repr

/-- `TriggerType.value`. -/
def triggerTypeValue : TriggerType → String
  | .cron => "cron"
  | .interval => "interval"
  | .date => "date"
  | .event => "event"
  | .condition => "condition"
  | .startup => "startup"

/-- `TriggerType(str)`: `none` models the `ValueError` on an unknown value. -/
def triggerTypeOfValue (v : String) : Option TriggerType :=
  if v == "cron" then some .cron
  else if v == "interval" then some .interval
  else if v == "date" then some .date
  else if v == "event" then some .event
  else if v == "condition" then some .condition
  else if v == "startup" then some .startup
  else none

/-- `ScheduledTask.to_dict`. -/
def ScheduledTask.to_dict (t : ScheduledTask) : TaskDict :=
  { id := t.id
    name := t.name
    description := t.description
    trigger_type := triggerTypeValue t.trigger_type
    trigger_config := t.trigger_config
    action := t.action
    action_params := t.action_params
    enabled := t.enabled
    created_at := t.created_at
    last_run := t.last_run
    run_count := t.run_count
    max_runs := t.max_runs
    tags := t.tags
    dependencies := t.dependencies }

/-- `ScheduledTask.from_dict` applied to a dict with the keys `to_dict`
writes.  Fields without a key in the dict take the dataclass defaults:
`next_run=None`, `retry_on_fail=True`, `retry_count=3`, `retry_delay=60`. -/
def ScheduledTask.from_dict (d : TaskDict) : Option ScheduledTask :=
  (triggerTypeOfValue d.trigger_type).map fun tt =>
    { id := d.id
      name := d.name
      description := d.description
      trigger_type := tt
      trigger_config := d.trigger_config
      action := d.action
      action_params := d.action_params
      enabled := d.enabled
      created_at := d.created_at
      last_run := d.last_run
      next_run := none
      run_count := d.run_count
      max_runs := d.max_runs
      retry_on_fail := true
      retry_count := 3
      retry_delay := 60
      tags := d.tags
      dependencies := d.dependencies }

/-! ## Concrete fixtures for counterexamples and witnesses -/

/-- A handler that always returns. -/
def printHandler : Params → ActOutcome := fun _ => .ok .vnull

/-- A handler that raises on every invocation. -/
def boomHandler : Params → ActOutcome := fun _ => .err "kaput"

/-- A small action registry: one succeeding and one raising handler. -/
def actionsEnv : ActionEnv := fun a =>
  if a = "print" then some printHandler
  else if a = "boom" then some boomHandler
  else none

/-- A task fixture with the dataclass defaults. -/
def mkTask (i act : String) : ScheduledTask :=
  { id := i, name := i, description := "", trigger_type := .interval,
    trigger_config := [], action := act }

def c1task : ScheduledTask := { mkTask "r" "boom" with retry_count := 2 }

def c1state : SchedulerModule := { tasks := [("r", c1task)] }

def c2state : SchedulerModule :=
  { tasks := [("a", { mkTask "a" "print" with max_runs := some 1 })] }

def c2out : SchedulerModule × Option TaskResult × List Ev :=
  (execute_task actionsEnv 2 c2state "a").getD (c2state, none, [])

def c2xtask : ScheduledTask :=
  { mkTask "a" "print" with max_runs := some 1, run_count := 1 }

def c2xstate : SchedulerModule := { tasks := [("a", c2xtask)] }

/-- Dependency `d1` has never run (`last_run` unset) but its `max_runs`
cap is already reached, so its execution aborts without running. -/
def c3state : SchedulerModule :=
  { tasks := [
      ("T", { mkTask "T" "print" with dependencies := ["d1", "d2"], retry_on_fail := false }),
      ("d1", { mkTask "d1" "print" with run_count := 1, max_runs := some 1 }),
      ("d2", { mkTask "d2" "print" with retry_on_fail := false })] }

def c3out : SchedulerModule × Option TaskResult × List Ev :=
  (execute_task actionsEnv 6 c3state "T").getD (c3state, none, [])

/-- Did the event record an invocation of task `T` while dependency
`d1` still had no `last_run`? -/
def badInvoke (ev : Ev) : Bool :=
  match ev with
  | .invoke t tm => t == "T" && ((lookupTask tm "d1").map (fun u => u.last_run) == some none)
  | .sleepEv _ => false

def c3wTask : ScheduledTask :=
  { mkTask "W" "print" with dependencies := ["d1", "d2"], retry_on_fail := false }

def c3wd1 : ScheduledTask := { mkTask "d1" "print" with retry_on_fail := false }

def c3wd2 : ScheduledTask := { mkTask "d2" "boom" with retry_on_fail := false }

def c3wstate : SchedulerModule :=
  { tasks := [("W", c3wTask), ("d1", c3wd1), ("d2", c3wd2)] }

def c3wout : SchedulerModule × Option TaskResult × List Ev :=
  (execute_task actionsEnv 6 c3wstate "W").getD (c3wstate, none, [])

/-- Action environment for the workflow scenario: step `a` uses `actA`
(succeeds if `aOk`), step `b` uses `actB` (succeeds if `bOk`). -/
def abActions (aOk bOk : Bool) : ActionEnv := fun a =>
  if a = "actA" then some (fun _ => if aOk then .ok .vnull else .err "A failed")
  else if a = "actB" then some (fun _ => if bOk then .ok .vnull else .err "B failed")
  else none

def c4wf : Workflow :=
  { id := "w", name := "w", description := "",
    steps := [ { task_id := "a", on_success := .int 1, on_failure := .str "stop" },
               { task_id := "b", on_success := .str "stop" } ] }

def c4state : SchedulerModule :=
  { tasks := [("a", { mkTask "a" "actA" with retry_on_fail := false }),
              ("b", { mkTask "b" "actB" with retry_on_fail := false })],
    workflows := [("w", c4wf)] }

def c4nameWf : Workflow :=
  { id := "v", name := "v", description := "",
    steps := [ { task_id := "a", on_success := .str "fin" },
               { task_id := "b", on_success := .str "next" },
               { task_id := "b", name := some "fin", on_success := .str "next" } ] }

def c4nameState : SchedulerModule :=
  { tasks := [("a", { mkTask "a" "print" with retry_on_fail := false }),
              ("b", { mkTask "b" "print" with retry_on_fail := false })],
    workflows := [("v", c4nameWf)] }

def c4noMatchWf : Workflow :=
  { id := "u", name := "u", description := "",
    steps := [ { task_id := "a", on_success := .str "nowhere" } ] }

def c4noMatchState : SchedulerModule :=
  { tasks := [("a", { mkTask "a" "print" with retry_on_fail := false })],
    workflows := [("u", c4noMatchWf)] }

/-- Observable outcome of a workflow run: the (task id, status) list, or
a marker when an exception escaped or fuel ran out. -/
def wfResults (o : WfOut) : List (String × TaskStatus) :=
  match o with
  | .ok _ rs => rs.map (fun r => (r.task_id, r.status))
  | .raised _ => [("RAISED", .failed)]
  | .fuelOut => [("FUEL", .failed)]

def c5task : ScheduledTask :=
  { mkTask "x" "print" with retry_on_fail := false, retry_count := 5, retry_delay := 10, tags := ["t"], dependencies := ["d"] }

/-- A workflow whose only step names a task id that is not registered. -/
def ghostWf : Workflow :=
  { id := "g", name := "g", description := "", steps := [ { task_id := "ghost" } ] }

def c6state : SchedulerModule := { workflows := [("g", ghostWf)] }

def c7state : SchedulerModule :=
  { tasks := [("e1", { mkTask "e1" "print" with retry_on_fail := false }),
              ("e2", { mkTask "e2" "boom" with retry_on_fail := false }),
              ("e3", { mkTask "e3" "print" with retry_on_fail := false })],
    event_handlers := [("x", ["e1", "e2", "e3"])] }

def c7out : SchedulerModule × List (String × Params) :=
  (emit_event actionsEnv 4 c7state "x" (.vstr "payload")).getD (c7state, [])

def c9task : ScheduledTask := mkTask "u" "ghost_action"

def c9state : SchedulerModule := { tasks := [("u", c9task)] }

def c10state : SchedulerModule :=
  { tasks := [("a", mkTask "a" "print"), ("b", mkTask "b" "print")] }

/-! ## Execution invariants and trace observations -/

def TPres (m m' : List (String × ScheduledTask)) : Prop :=
  (∀ x, lookupTask m x = none → lookupTask m' x = none) ∧
  (∀ x t, lookupTask m x = some t → ∃ t', lookupTask m' x = some t' ∧
    t'.id = t.id ∧ t'.action = t.action ∧ t'.dependencies = t.dependencies ∧
    t'.max_runs = t.max_runs ∧
    (t.last_run.isSome → t'.last_run.isSome) ∧
    (t'.last_run = none → t'.run_count = t.run_count ∧ t.last_run = none))

/-- After a dispatcher call on `d`, its registered task has a set
`last_run` or a reached `max_runs` cap (also trivially true if `d` is
not registered). -/
def DepOK (m : List (String × ScheduledTask)) (d : String) : Prop :=
  match lookupTask m d with
  | none => True
  | some td => td.last_run.isSome ∨ maxRunsReached td = true

/-- Every action invocation recorded in a trace happened at a task map
reachable from `m0`, on a task whose registered dependencies all
satisfied `DepOK` at that moment. -/
def InvokeOK (m0 : List (String × ScheduledTask)) (tr : List Ev) : Prop :=
  ∀ x tm, Ev.invoke x tm ∈ tr →
    TPres m0 tm ∧ ∃ tx, lookupTask tm x = some tx ∧
      ∀ d ∈ tx.dependencies, DepOK tm d

/-- Full-state preservation along a dispatcher execution. -/
def Pres (s s' : SchedulerModule) : Prop :=
  TPres s.tasks s'.tasks ∧
  s'.workflows = s.workflows ∧
  s'.event_handlers = s.event_handlers ∧
  (s.results.length ≤ 1000 → s'.results.length ≤ 1000)

/-- Postcondition of one dispatcher call `step s tid = some out`. -/
def StepPost (s : SchedulerModule) (tid : String)
    (out : SchedulerModule × Option TaskResult × List Ev) : Prop :=
  Pres s out.1 ∧ InvokeOK s.tasks out.2.2 ∧
  ((lookupTask s.tasks tid).isSome → DepOK out.1.tasks tid)

/-- Number of recorded invocations of `tid`'s action handler. -/
def countInvokes (tr : List Ev) (tid : String) : Nat :=
  (tr.filter fun ev =>
    match ev with
    | .invoke t _ => decide (t = tid)
    | .sleepEv _ => false).length

/-- The retry suspensions of a trace, in order. -/
def sleepsOf (tr : List Ev) : List Int :=
  tr.filterMap fun ev =>
    match ev with
    | .sleepEv dl => some dl
    | .invoke _ _ => none

/-! ## Lookup and update lemmas -/

theorem lookupTask_updateTask (m : List (String × ScheduledTask)) (tid x : String)
    (f : ScheduledTask → ScheduledTask) :
    lookupTask (updateTask m tid f) x =
      if x = tid then (lookupTask m tid).map f else lookupTask m x := by
  induction m with
  | nil => simp [lookupTask, updateTask, alookup]
  | cons p rest ih =>
    obtain ⟨k, t⟩ := p
    by_cases hkt : k = tid
    · subst hkt
      by_cases hxk : x = k
      · subst hxk
        simp [lookupTask, updateTask, alookup]
      · simpa [lookupTask, updateTask, alookup, hxk, Ne.symm hxk] using ih
    · by_cases hxk : x = k
      · subst hxk
        simp [lookupTask, updateTask, alookup, hkt, Ne.symm hkt]
      · simpa [lookupTask, updateTask, alookup, hkt, hxk, Ne.symm hxk] using ih

theorem lookupTask_updateTask_self (m : List (String × ScheduledTask)) (tid : String)
    (f : ScheduledTask → ScheduledTask) :
    lookupTask (updateTask m tid f) tid = (lookupTask m tid).map f := by
  simp [lookupTask_updateTask]

theorem lookupTask_updateTask_ne (m : List (String × ScheduledTask)) (tid x : String)
    (f : ScheduledTask → ScheduledTask) (h : x ≠ tid) :
    lookupTask (updateTask m tid f) x = lookupTask m x := by
  simp [lookupTask_updateTask, h]

/-! ## Execution invariants

`TPres m m'` relates a task map to any later task map of the same
execution: no task appears or disappears, the immutable fields (`id`,
`action`, `dependencies`, `max_runs`) are unchanged, a set `last_run`
stays set, and while `last_run` is still unset `run_count` is unchanged
(the dispatcher writes `last_run` and `run_count` together). -/


theorem TPres_refl (m : List (String × ScheduledTask)) : TPres m m := by
  refine ⟨fun x h => h, fun x t h => ⟨t, h, rfl, rfl, rfl, rfl, fun h' => h', fun h' => ⟨rfl, h'⟩⟩⟩

theorem TPres_trans {m₀ m₁ m₂ : List (String × ScheduledTask)}
    (h₁ : TPres m₀ m₁) (h₂ : TPres m₁ m₂) : TPres m₀ m₂ := by
  obtain ⟨hn₁, hs₁⟩ := h₁
  obtain ⟨hn₂, hs₂⟩ := h₂
  refine ⟨fun x h => hn₂ x (hn₁ x h), fun x t h => ?_⟩
  obtain ⟨t₁, hl₁, hid₁, hact₁, hdep₁, hmax₁, hlr₁, hrc₁⟩ := hs₁ x t h
  obtain ⟨t₂, hl₂, hid₂, hact₂, hdep₂, hmax₂, hlr₂, hrc₂⟩ := hs₂ x t₁ hl₁
  refine ⟨t₂, hl₂, hid₂.trans hid₁, hact₂.trans hact₁, hdep₂.trans hdep₁,
    hmax₂.trans hmax₁, fun h' => hlr₂ (hlr₁ h'), fun h' => ?_⟩
  obtain ⟨hrc₂', hnone₁⟩ := hrc₂ h'
  obtain ⟨hrc₁', hnone₀⟩ := hrc₁ hnone₁
  exact ⟨hrc₂'.trans hrc₁', hnone₀⟩

/-- `TPres` for a single in-place task mutation whose function keeps the
tracked fields. -/
theorem TPres_update (m : List (String × ScheduledTask)) (tid : String)
    (f : ScheduledTask → ScheduledTask)
    (hid : ∀ t, (f t).id = t.id) (hact : ∀ t, (f t).action = t.action)
    (hdep : ∀ t, (f t).dependencies = t.dependencies)
    (hmax : ∀ t, (f t).max_runs = t.max_runs)
    (hlr : ∀ t, t.last_run.isSome → (f t).last_run.isSome)
    (hrc : ∀ t, (f t).last_run = none → (f t).run_count = t.run_count ∧ t.last_run = none) :
    TPres m (updateTask m tid f) := by
  constructor
  · intro x h
    by_cases hx : x = tid
    · subst hx
      simp [lookupTask_updateTask_self, h]
    · rwa [lookupTask_updateTask_ne m tid x f hx]
  · intro x t h
    by_cases hx : x = tid
    · subst hx
      refine ⟨f t, ?_, hid t, hact t, hdep t, hmax t, hlr t, hrc t⟩
      simp [lookupTask_updateTask_self, h]
    · exact ⟨t, by rwa [lookupTask_updateTask_ne m tid x f hx], rfl, rfl, rfl, rfl,
        fun h' => h', fun h' => ⟨rfl, h'⟩⟩


theorem DepOK_mono {m m' : List (String × ScheduledTask)} {d : String}
    (h : DepOK m d) (hp : TPres m m') : DepOK m' d := by
  unfold DepOK at h ⊢
  cases hl : lookupTask m d with
  | none =>
    simp [hp.1 d hl]
  | some td =>
    rw [hl] at h
    obtain ⟨t', hl', _, _, _, hmax, hlr, hrc⟩ := hp.2 d td hl
    rw [hl']
    rcases h with h | h
    · exact Or.inl (hlr h)
    · cases hnone : t'.last_run with
      | some v => exact Or.inl (by simp [hnone])
      | none =>
        obtain ⟨hrc', _⟩ := hrc hnone
        refine Or.inr ?_
        unfold maxRunsReached at h ⊢
        rw [hmax, hrc']
        exact h


theorem InvokeOK_nil (m0 : List (String × ScheduledTask)) : InvokeOK m0 [] := by
  intro x tm h
  simp at h

theorem InvokeOK_mono {m0 m1 : List (String × ScheduledTask)} {tr : List Ev}
    (hp : TPres m0 m1) (h : InvokeOK m1 tr) : InvokeOK m0 tr := by
  intro x tm hm
  obtain ⟨hpres, htx⟩ := h x tm hm
  exact ⟨TPres_trans hp hpres, htx⟩

theorem InvokeOK_append {m0 : List (String × ScheduledTask)} {tr₀ tr₁ : List Ev}
    (h₀ : InvokeOK m0 tr₀) (h₁ : InvokeOK m0 tr₁) : InvokeOK m0 (tr₀ ++ tr₁) := by
  intro x tm hm
  rcases List.mem_append.mp hm with hm | hm
  · exact h₀ x tm hm
  · exact h₁ x tm hm

theorem InvokeOK_sleep (m0 : List (String × ScheduledTask)) (d : Int) :
    InvokeOK m0 [Ev.sleepEv d] := by
  intro x tm h
  simp at h

theorem InvokeOK_single {m0 tm : List (String × ScheduledTask)} {x : String}
    (hp : TPres m0 tm) {tx : ScheduledTask} (hl : lookupTask tm x = some tx)
    (hd : ∀ d ∈ tx.dependencies, DepOK tm d) :
    InvokeOK m0 [Ev.invoke x tm] := by
  intro y tm' h
  simp only [List.mem_singleton, Ev.invoke.injEq] at h
  obtain ⟨hy, htm⟩ := h
  subst hy
  subst htm
  exact ⟨hp, tx, hl, hd⟩

/-! ## Result-log bounds and full-state preservation -/

theorem appendResult_length_le (rs : List TaskResult) (r : TaskResult)
    (h : rs.length ≤ 1000) : (appendResult rs r).length ≤ 1000 := by
  simp only [appendResult]
  split
  · simp only [List.length_drop, List.length_append, List.length_singleton]
    omega
  · next hb =>
    simp only [List.length_append, List.length_singleton, gt_iff_lt, not_lt] at hb ⊢
    omega

theorem appendResult_eq_append (rs : List TaskResult) (r : TaskResult)
    (h : rs.length ≤ 999) : appendResult rs r = rs ++ [r] := by
  have hlt : ¬ (rs ++ [r]).length > 1000 := by
    simp only [List.length_append, List.length_singleton, gt_iff_lt, not_lt]
    omega
  simp only [appendResult]
  rw [if_neg hlt]


theorem Pres_refl (s : SchedulerModule) : Pres s s :=
  ⟨TPres_refl s.tasks, rfl, rfl, fun h => h⟩

theorem Pres_trans {s₀ s₁ s₂ : SchedulerModule} (h₁ : Pres s₀ s₁) (h₂ : Pres s₁ s₂) :
    Pres s₀ s₂ :=
  ⟨TPres_trans h₁.1 h₂.1, h₂.2.1.trans h₁.2.1, h₂.2.2.1.trans h₁.2.2.1,
    fun h => h₂.2.2.2 (h₁.2.2.2 h)⟩

/-- The state after `finalizeTask`, spelled out. -/
theorem finalizeTask_fst (s : SchedulerModule) (tid : String) (start : Nat)
    (st : TaskStatus) (rv : Option Val) (emsg : Option String) :
    (finalizeTask s tid start st rv emsg).1 =
      { s with clock := s.clock + 1, tasks := updateTask s.tasks tid (bumpRun start), results := appendResult s.results (attemptResult tid st start s.clock rv emsg) } := rfl

/-- The result returned by `finalizeTask`, spelled out. -/
theorem finalizeTask_snd (s : SchedulerModule) (tid : String) (start : Nat)
    (st : TaskStatus) (rv : Option Val) (emsg : Option String) :
    (finalizeTask s tid start st rv emsg).2 = attemptResult tid st start s.clock rv emsg := rfl

theorem finalizeTask_pres (s : SchedulerModule) (tid : String) (start : Nat)
    (st : TaskStatus) (rv : Option Val) (emsg : Option String) :
    Pres s (finalizeTask s tid start st rv emsg).1 := by
  rw [finalizeTask_fst]
  refine ⟨?_, rfl, rfl, fun h => appendResult_length_le _ _ h⟩
  exact TPres_update s.tasks tid (bumpRun start) (fun t => rfl) (fun t => rfl)
    (fun t => rfl) (fun t => rfl) (fun t _ => rfl)
    (fun t h => by simp [bumpRun] at h)

theorem finalizeTask_lookup_self (s : SchedulerModule) (tid : String) (start : Nat)
    (st : TaskStatus) (rv : Option Val) (emsg : Option String) :
    lookupTask (finalizeTask s tid start st rv emsg).1.tasks tid =
      (lookupTask s.tasks tid).map (bumpRun start) := by
  rw [finalizeTask_fst]
  exact lookupTask_updateTask_self s.tasks tid (bumpRun start)


/-- Master invariant of the dependency loop, generic in the dispatcher. -/
theorem execDeps_master
    (step : SchedulerModule → String → Option (SchedulerModule × Option TaskResult × List Ev))
    (hstep : ∀ s d out, step s d = some out → StepPost s d out) :
    ∀ ds s out, execDeps step ds s = some out →
      Pres s out.1 ∧ InvokeOK s.tasks out.2 ∧ ∀ d ∈ ds, DepOK out.1.tasks d := by
  intro ds
  induction ds with
  | nil =>
    intro s out h
    simp only [execDeps, Option.some.injEq] at h
    subst h
    exact ⟨Pres_refl s, InvokeOK_nil s.tasks, by simp⟩
  | cons d ds ih =>
    intro s out h
    rw [execDeps] at h
    cases hl : lookupTask s.tasks d with
    | none =>
      rw [hl] at h
      dsimp only at h
      obtain ⟨hp, hi, hd⟩ := ih s out h
      refine ⟨hp, hi, ?_⟩
      intro d' hd'
      rcases List.mem_cons.mp hd' with rfl | hmem
      · unfold DepOK
        simp [hp.1.1 d' hl]
      · exact hd d' hmem
    | some dt =>
      rw [hl] at h
      dsimp only at h
      cases hb : dt.last_run.isNone with
      | false =>
        rw [hb, if_neg Bool.false_ne_true] at h
        obtain ⟨hp, hi, hd⟩ := ih s out h
        refine ⟨hp, hi, ?_⟩
        intro d' hd'
        rcases List.mem_cons.mp hd' with rfl | hmem
        · unfold DepOK
          obtain ⟨t', hl', _, _, _, _, hlr, _⟩ := hp.1.2 d' dt hl
          rw [hl']
          refine Or.inl (hlr ?_)
          cases hdl : dt.last_run with
          | none => rw [hdl] at hb; exact absurd hb (by simp)
          | some v => simp [hdl]
        · exact hd d' hmem
      | true =>
        rw [hb, if_pos rfl] at h
        cases hs : step s d with
        | none => rw [hs] at h; cases h
        | some out₁ =>
          obtain ⟨s₁, r₁, tr₁⟩ := out₁
          rw [hs] at h
          dsimp only at h
          cases hdd : execDeps step ds s₁ with
          | none => rw [hdd] at h; cases h
          | some out₂ =>
            obtain ⟨s₂, tr₂⟩ := out₂
            rw [hdd] at h
            dsimp only at h
            rw [Option.some.injEq] at h
            subst h
            obtain ⟨hp₁, hi₁, hdep₁⟩ := hstep s d (s₁, r₁, tr₁) hs
            obtain ⟨hp₂, hi₂, hdep₂⟩ := ih s₁ (s₂, tr₂) hdd
            refine ⟨Pres_trans hp₁ hp₂, ?_, ?_⟩
            · exact InvokeOK_append hi₁ (InvokeOK_mono hp₁.1 hi₂)
            · intro d' hd'
              rcases List.mem_cons.mp hd' with rfl | hmem
              · exact DepOK_mono (hdep₁ (by simp [hl])) hp₂.1
              · exact hdep₂ d' hmem

/-- Master invariant of the dispatcher: any terminating execution
preserves the state relation, records only well-formed invocations, and
leaves the executed task with a set `last_run` or a reached cap. -/
theorem execute_task_master (A : ActionEnv) :
    ∀ fuel s tid out, execute_task A fuel s tid = some out → StepPost s tid out := by
  intro fuel
  induction fuel with
  | zero =>
    intro s tid out h
    simp [execute_task] at h
  | succ n ih =>
    intro s tid out h
    rw [execute_task] at h
    cases hl : lookupTask s.tasks tid with
    | none =>
      rw [hl] at h
      dsimp only at h
      rw [Option.some.injEq] at h
      subst h
      refine ⟨Pres_refl s, InvokeOK_nil s.tasks, fun hs => ?_⟩
      rw [hl] at hs
      simp at hs
    | some task =>
      rw [hl] at h
      dsimp only at h
      cases hg : maxRunsReached task with
      | true =>
        rw [hg, if_pos rfl, Option.some.injEq] at h
        subst h
        refine ⟨⟨?_, rfl, rfl, fun h' => h'⟩, InvokeOK_nil s.tasks, fun _ => ?_⟩
        · exact TPres_update s.tasks tid disableFlag (fun t => rfl) (fun t => rfl)
            (fun t => rfl) (fun t => rfl) (fun t h' => h') (fun t h' => ⟨rfl, h'⟩)
        · unfold DepOK
          show (match lookupTask (updateTask s.tasks tid disableFlag) tid with
            | none => True
            | some td => td.last_run.isSome = true ∨ maxRunsReached td = true)
          rw [lookupTask_updateTask_self, hl]
          dsimp only [Option.map]
          exact Or.inr hg
      | false =>
        rw [hg, if_neg Bool.false_ne_true] at h
        cases hdeps : execDeps (execute_task A n) task.dependencies
            { s with clock := s.clock + 1 } with
        | none => rw [hdeps] at h; cases h
        | some out₁ =>
          obtain ⟨s₁, tr₀⟩ := out₁
          rw [hdeps] at h
          dsimp only at h
          obtain ⟨hp₁, hi₁, hdep₁⟩ :=
            execDeps_master (execute_task A n) (fun s' d o hh => ih s' d o hh)
              task.dependencies { s with clock := s.clock + 1 } (s₁, tr₀) hdeps
          have hps₁ : Pres s s₁ :=
            Pres_trans ⟨TPres_refl s.tasks, rfl, rfl, fun x => x⟩ hp₁
          cases hl₁ : lookupTask s₁.tasks tid with
          | none =>
            obtain ⟨t', hlt', _⟩ := hp₁.1.2 tid task hl
            rw [hl₁] at hlt'
            cases hlt'
          | some task₁ =>
            rw [hl₁] at h
            dsimp only at h
            obtain ⟨t', hlt', hid', hact', hdep', hmax', hlr', hrc'⟩ := hp₁.1.2 tid task hl
            rw [hl₁, Option.some.injEq] at hlt'
            subst hlt'
            cases hA : A task₁.action with
            | none =>
              rw [hA] at h
              dsimp only at h
              rw [Option.some.injEq] at h
              subst h
              refine ⟨Pres_trans hps₁ (finalizeTask_pres s₁ tid s.clock .failed none _),
                hi₁, fun _ => ?_⟩
              unfold DepOK
              rw [finalizeTask_lookup_self, hl₁]
              dsimp only [Option.map]
              exact Or.inl (by simp [bumpRun])
            | some f =>
              rw [hA] at h
              dsimp only at h
              have hinv : InvokeOK s.tasks [Ev.invoke tid s₁.tasks] :=
                InvokeOK_single hps₁.1 hl₁ (fun d hd => hdep₁ d (hdep' ▸ hd))
              cases hf : f task₁.action_params with
              | ok v =>
                rw [hf] at h
                dsimp only at h
                rw [Option.some.injEq] at h
                subst h
                refine ⟨Pres_trans hps₁ (finalizeTask_pres s₁ tid s.clock .completed (some v) none),
                  InvokeOK_append hi₁ hinv, fun _ => ?_⟩
                unfold DepOK
                rw [finalizeTask_lookup_self, hl₁]
                dsimp only [Option.map]
                exact Or.inl (by simp [bumpRun])
              | err msg =>
                rw [hf] at h
                dsimp only at h
                cases hr : task₁.retry_on_fail && decide (0 < task₁.retry_count) with
                | false =>
                  rw [hr, if_neg Bool.false_ne_true, Option.some.injEq] at h
                  subst h
                  refine ⟨Pres_trans hps₁ (finalizeTask_pres s₁ tid s.clock .failed none (some msg)),
                    InvokeOK_append hi₁ hinv, fun _ => ?_⟩
                  unfold DepOK
                  rw [finalizeTask_lookup_self, hl₁]
                  dsimp only [Option.map]
                  exact Or.inl (by simp [bumpRun])
                | true =>
                  rw [hr, if_pos rfl] at h
                  cases hrec : execute_task A n { s₁ with tasks := updateTask s₁.tasks tid decRetry } tid with
                  | none => rw [hrec] at h; cases h
                  | some out₃ =>
                    obtain ⟨s₃, r₃, tr₃⟩ := out₃
                    rw [hrec] at h
                    dsimp only at h
                    rw [Option.some.injEq] at h
                    subst h
                    obtain ⟨hp₃, hi₃, hdep₃⟩ := ih _ tid _ hrec
                    have hpupd : Pres s₁ { s₁ with tasks := updateTask s₁.tasks tid decRetry } :=
                      ⟨TPres_update _ tid decRetry (fun t => rfl) (fun t => rfl) (fun t => rfl)
                        (fun t => rfl) (fun t h' => h') (fun t h' => ⟨rfl, h'⟩),
                        rfl, rfl, fun x => x⟩
                    refine ⟨Pres_trans (Pres_trans hps₁ hpupd) hp₃, ?_, fun _ => ?_⟩
                    · refine InvokeOK_append (InvokeOK_append hi₁ hinv) ?_
                      intro x tm hm
                      rcases List.mem_cons.mp hm with heq | hm'
                      · simp at heq
                      · exact (InvokeOK_mono (Pres_trans hps₁ hpupd).1 hi₃) x tm hm'
                    · refine hdep₃ ?_
                      have hlu : lookupTask (updateTask s₁.tasks tid decRetry) tid =
                          (lookupTask s₁.tasks tid).map decRetry :=
                        lookupTask_updateTask_self s₁.tasks tid decRetry
                      show (lookupTask { s₁ with tasks := updateTask s₁.tasks tid decRetry }.tasks tid).isSome = true
                      rw [show ({ s₁ with tasks := updateTask s₁.tasks tid decRetry } : SchedulerModule).tasks = updateTask s₁.tasks tid decRetry from rfl, hlu, hl₁]
                      simp

/-! ## A dispatcher step with no dependencies, spelled out -/

/-- One dispatcher frame for a registered, admitted task with an empty
dependency list: the dependency loop is a no-op and the frame reduces to
the action branch. -/
theorem execute_task_frame (A : ActionEnv) (fuel : Nat) (s : SchedulerModule)
    (tid : String) (task : ScheduledTask)
    (hl : lookupTask s.tasks tid = some task)
    (hg : maxRunsReached task = false)
    (hdeps : task.dependencies = []) :
    execute_task A (fuel + 1) s tid =
      match A task.action with
      | none =>
        let fs := finalizeTask { s with clock := s.clock + 1 } tid s.clock .failed none (some ("Nieznana akcja: " ++ task.action))
        some (fs.1, some fs.2, [])
      | some f =>
        match f task.action_params with
        | .ok v =>
          let fs := finalizeTask { s with clock := s.clock + 1 } tid s.clock .completed (some v) none
          some (fs.1, some fs.2, [Ev.invoke tid s.tasks])
        | .err m =>
          if task.retry_on_fail && decide (0 < task.retry_count) then
            match execute_task A fuel { s with clock := s.clock + 1, tasks := updateTask s.tasks tid decRetry } tid with
            | none => none
            | some (s₃, r₃, tr₃) =>
              some (s₃, r₃, Ev.invoke tid s.tasks :: Ev.sleepEv task.retry_delay :: tr₃)
          else
            let fs := finalizeTask { s with clock := s.clock + 1 } tid s.clock .failed none (some m)
            some (fs.1, some fs.2, [Ev.invoke tid s.tasks]) := by
  rw [execute_task, hl]
  dsimp only
  rw [hg, if_neg Bool.false_ne_true, hdeps]
  simp only [execDeps]
  rw [show lookupTask ({ s with clock := s.clock + 1 } : SchedulerModule).tasks tid = some task from hl]
  dsimp only
  cases A task.action with
  | none => simp
  | some f =>
    dsimp only
    cases f task.action_params with
    | ok v => simp
    | err m =>
      dsimp only
      cases hr : task.retry_on_fail && decide (0 < task.retry_count) with
      | false =>
        rw [if_neg Bool.false_ne_true, if_neg Bool.false_ne_true]
        simp
      | true =>
        rw [if_pos rfl, if_pos rfl]
        cases hrec : execute_task A fuel { s with clock := s.clock + 1, tasks := updateTask s.tasks tid decRetry } tid with
        | none => rfl
        | some out₃ =>
          obtain ⟨s₃, r₃, tr₃⟩ := out₃
          simp

/-! ## Association-list support lemmas -/

theorem alookup_append {α : Type} (m l : List (String × α)) (k : String) :
    alookup (m ++ l) k =
      match alookup m k with
      | some v => some v
      | none => alookup l k := by
  induction m with
  | nil => simp [alookup]
  | cons p rest ih =>
    obtain ⟨k₀, v₀⟩ := p
    by_cases hk : k₀ = k
    · simp [alookup, hk]
    · simp [alookup, hk, ih]

theorem alookup_map_setVal {α : Type} (rest : List (String × α)) (k : String) (v : α)
    (hs : (alookup rest k).isSome = true) :
    alookup (rest.map fun p => (p.1, if p.1 = k then v else p.2)) k = some v := by
  induction rest with
  | nil => simp [alookup] at hs
  | cons p r ih =>
    obtain ⟨k₀, v₀⟩ := p
    by_cases hk : k₀ = k
    · simp [alookup, hk]
    · simp only [alookup, List.map_cons] at hs ⊢
      rw [if_neg hk] at hs
      rw [if_neg hk]
      exact ih hs

theorem alookup_map_setVal_ne {α : Type} (rest : List (String × α)) (k x : String)
    (v : α) (h : x ≠ k) :
    alookup (rest.map fun p => (p.1, if p.1 = k then v else p.2)) x = alookup rest x := by
  induction rest with
  | nil => simp [alookup]
  | cons p r ih =>
    obtain ⟨k₀, v₀⟩ := p
    by_cases hkx : k₀ = x
    · subst hkx
      simp only [alookup, List.map_cons, if_true]
      rw [if_neg h]
    · simp only [alookup, List.map_cons]
      rw [if_neg hkx, if_neg hkx]
      exact ih

theorem alookup_setKey_self {α : Type} (m : List (String × α)) (k : String) (v : α) :
    alookup (setKey m k v) k = some v := by
  unfold setKey
  cases hs : (alookup m k).isSome with
  | false =>
    rw [if_neg (by simp [hs])]
    rw [alookup_append]
    cases hmk : alookup m k with
    | some w => rw [hmk] at hs; simp at hs
    | none => simp [alookup]
  | true =>
    rw [if_pos (by simp [hs])]
    exact alookup_map_setVal m k v hs

theorem alookup_setKey_ne {α : Type} (m : List (String × α)) (k x : String) (v : α)
    (h : x ≠ k) : alookup (setKey m k v) x = alookup m x := by
  unfold setKey
  cases hs : (alookup m k).isSome with
  | false =>
    rw [if_neg (by simp [hs])]
    rw [alookup_append]
    cases hx : alookup m x with
    | some w => rfl
    | none => simp [alookup, Ne.symm h]
  | true =>
    rw [if_pos (by simp [hs])]
    exact alookup_map_setVal_ne m k x v h

theorem lookupTask_filter_self (m : List (String × ScheduledTask)) (tid : String) :
    lookupTask (m.filter fun p => decide (p.1 ≠ tid)) tid = none := by
  induction m with
  | nil => rfl
  | cons p rest ih =>
    obtain ⟨k, t⟩ := p
    by_cases hk : k = tid
    · simp only [List.filter_cons]
      rw [if_neg (by simp [hk])]
      exact ih
    · simp only [List.filter_cons]
      rw [if_pos (by simp [hk])]
      simp only [lookupTask, alookup] at ih ⊢
      rw [if_neg hk]
      exact ih

theorem lookupTask_filter_ne (m : List (String × ScheduledTask)) (tid x : String)
    (h : x ≠ tid) :
    lookupTask (m.filter fun p => decide (p.1 ≠ tid)) x = lookupTask m x := by
  induction m with
  | nil => rfl
  | cons p rest ih =>
    obtain ⟨k, t⟩ := p
    by_cases hk : k = tid
    · simp only [List.filter_cons]
      rw [if_neg (by simp [hk])]
      simp only [lookupTask, alookup]
      rw [if_neg (fun hh : k = x => h (by rw [← hh, hk]))]
      exact ih
    · simp only [List.filter_cons]
      rw [if_pos (by simp [hk])]
      simp only [lookupTask, alookup] at ih ⊢
      by_cases hkx : k = x
      · rw [if_pos hkx, if_pos hkx]
      · rw [if_neg hkx, if_neg hkx]
        exact ih

/-- Locality: executing a task whose registered entry has no
dependencies touches no other task entry. -/
theorem execute_task_local (A : ActionEnv) :
    ∀ fuel s tid out, execute_task A fuel s tid = some out →
      (∀ task, lookupTask s.tasks tid = some task → task.dependencies = []) →
      ∀ x, x ≠ tid → lookupTask out.1.tasks x = lookupTask s.tasks x := by
  intro fuel
  induction fuel with
  | zero =>
    intro s tid out h
    simp [execute_task] at h
  | succ n ih =>
    intro s tid out h hd x hx
    cases hl : lookupTask s.tasks tid with
    | none =>
      rw [execute_task, hl] at h
      dsimp only at h
      rw [Option.some.injEq] at h
      subst h
      rfl
    | some task =>
      have hdeps0 : task.dependencies = [] := hd task hl
      cases hg : maxRunsReached task with
      | true =>
        rw [execute_task, hl] at h
        dsimp only at h
        rw [hg, if_pos rfl, Option.some.injEq] at h
        subst h
        exact lookupTask_updateTask_ne s.tasks tid x disableFlag hx
      | false =>
        rw [execute_task_frame A n s tid task hl hg hdeps0] at h
        cases hA : A task.action with
        | none =>
          rw [hA] at h
          dsimp only at h
          rw [Option.some.injEq] at h
          subst h
          rw [finalizeTask_fst]
          exact lookupTask_updateTask_ne _ tid x _ hx
        | some f =>
          rw [hA] at h
          dsimp only at h
          cases hf : f task.action_params with
          | ok v =>
            rw [hf] at h
            dsimp only at h
            rw [Option.some.injEq] at h
            subst h
            rw [finalizeTask_fst]
            exact lookupTask_updateTask_ne _ tid x _ hx
          | err m =>
            rw [hf] at h
            dsimp only at h
            cases hr : task.retry_on_fail && decide (0 < task.retry_count) with
            | false =>
              rw [hr, if_neg Bool.false_ne_true, Option.some.injEq] at h
              subst h
              rw [finalizeTask_fst]
              exact lookupTask_updateTask_ne _ tid x _ hx
            | true =>
              rw [hr, if_pos rfl] at h
              cases hrec : execute_task A n { s with clock := s.clock + 1, tasks := updateTask s.tasks tid decRetry } tid with
              | none => rw [hrec] at h; cases h
              | some out₃ =>
                obtain ⟨s₃, r₃, tr₃⟩ := out₃
                rw [hrec] at h
                dsimp only at h
                rw [Option.some.injEq] at h
                subst h
                have hd₂ : ∀ task', lookupTask (updateTask s.tasks tid decRetry) tid = some task' →
                    task'.dependencies = [] := by
                  intro task' hl'
                  rw [lookupTask_updateTask_self, hl] at hl'
                  dsimp only [Option.map] at hl'
                  rw [Option.some.injEq] at hl'
                  subst hl'
                  exact hdeps0
                have := ih _ tid _ hrec hd₂ x hx
                rw [this]
                exact lookupTask_updateTask_ne s.tasks tid x decRetry hx


theorem countInvokes_cons_invoke (tid : String) (tm : List (String × ScheduledTask))
    (tr : List Ev) : countInvokes (Ev.invoke tid tm :: tr) tid = countInvokes tr tid + 1 := by
  simp [countInvokes, List.filter_cons]

theorem countInvokes_cons_sleep (dl : Int) (tr : List Ev) (tid : String) :
    countInvokes (Ev.sleepEv dl :: tr) tid = countInvokes tr tid := by
  simp [countInvokes, List.filter_cons]

theorem sleepsOf_cons_invoke (t : String) (tm : List (String × ScheduledTask))
    (tr : List Ev) : sleepsOf (Ev.invoke t tm :: tr) = sleepsOf tr := by
  simp [sleepsOf]

theorem sleepsOf_cons_sleep (dl : Int) (tr : List Ev) :
    sleepsOf (Ev.sleepEv dl :: tr) = dl :: sleepsOf tr := by
  simp [sleepsOf]

/-- The retry loop, solved: a registered, admitted, dependency-free task
whose handler raises on every call runs `k + 1` attempts (`k` the
starting `retry_count`), sleeps `retry_delay` before each re-attempt,
and finalizes exactly one Failed result with `retry_count` at 0. -/
theorem retry_loop_spec (A : ActionEnv) :
    ∀ (k fuel : Nat) (s : SchedulerModule) (tid : String) (task : ScheduledTask)
      (f : Params → ActOutcome),
      lookupTask s.tasks tid = some task →
      task.dependencies = [] →
      maxRunsReached task = false →
      task.retry_on_fail = true →
      task.retry_count = (k : Int) →
      A task.action = some f →
      (∀ p, ∃ m, f p = .err m) →
      s.results.length ≤ 999 →
      k + 1 ≤ fuel →
      ∃ s' res tr,
        execute_task A fuel s tid = some (s', some res, tr) ∧
        res.status = .failed ∧ res.task_id = tid ∧
        countInvokes tr tid = k + 1 ∧
        sleepsOf tr = List.replicate k task.retry_delay ∧
        s'.results = s.results ++ [res] ∧
        ∃ t', lookupTask s'.tasks tid = some t' ∧ t'.retry_count = 0 ∧
          t'.run_count = task.run_count + 1 ∧ t'.last_run.isSome = true := by
  intro k
  induction k with
  | zero =>
    intro fuel s tid task f hl hdeps hg hro hrc hA herr hres hfuel
    obtain ⟨fl, rfl⟩ : ∃ fl, fuel = fl + 1 := ⟨fuel - 1, by omega⟩
    rw [execute_task_frame A fl s tid task hl hg hdeps, hA]
    dsimp only
    obtain ⟨m, hm⟩ := herr task.action_params
    rw [hm]
    dsimp only
    have hcond : (task.retry_on_fail && decide (0 < task.retry_count)) = false := by
      rw [hrc]
      simp
    rw [hcond, if_neg Bool.false_ne_true]
    refine ⟨_, _, _, rfl, ?_, ?_, ?_, ?_, ?_, ?_⟩
    · rw [finalizeTask_snd]
      rfl
    · rw [finalizeTask_snd]
      rfl
    · simp [countInvokes, List.filter_cons]
    · simp [sleepsOf]
    · rw [finalizeTask_fst]
      exact appendResult_eq_append s.results _ hres
    · refine ⟨bumpRun s.clock task, ?_, ?_, ?_, ?_⟩
      · rw [finalizeTask_lookup_self]
        rw [show lookupTask ({ s with clock := s.clock + 1 } : SchedulerModule).tasks tid = some task from hl]
        rfl
      · simp [bumpRun, hrc]
      · simp [bumpRun]
      · simp [bumpRun]
  | succ kk ihk =>
    intro fuel s tid task f hl hdeps hg hro hrc hA herr hres hfuel
    obtain ⟨fl, rfl⟩ : ∃ fl, fuel = fl + 1 := ⟨fuel - 1, by omega⟩
    rw [execute_task_frame A fl s tid task hl hg hdeps, hA]
    dsimp only
    obtain ⟨m, hm⟩ := herr task.action_params
    rw [hm]
    dsimp only
    have hcond : (task.retry_on_fail && decide (0 < task.retry_count)) = true := by
      rw [hro, hrc]
      simp
    rw [hcond, if_pos rfl]
    have hl₂ : lookupTask (updateTask s.tasks tid decRetry) tid = some (decRetry task) := by
      rw [lookupTask_updateTask_self, hl]
      rfl
    have hrc₂ : (decRetry task).retry_count = (kk : Int) := by
      simp [decRetry, hrc]
    have hg₂ : maxRunsReached (decRetry task) = false := by
      simpa [maxRunsReached, decRetry] using hg
    obtain ⟨s', res, tr, hexec, hst, hid, hcount, hsleeps, hresults, t', hlt', hrc', hruncount, hlast⟩ :=
      ihk fl { s with clock := s.clock + 1, tasks := updateTask s.tasks tid decRetry } tid
        (decRetry task) f hl₂ (by simpa [decRetry] using hdeps) hg₂
        (by simpa [decRetry] using hro) hrc₂ (by simpa [decRetry] using hA) herr
        (by simpa using hres) (by omega)
    rw [hexec]
    dsimp only
    refine ⟨s', res, _, rfl, hst, hid, ?_, ?_, ?_, t', hlt', hrc', ?_, hlast⟩
    · rw [countInvokes_cons_invoke, countInvokes_cons_sleep, hcount]
    · rw [sleepsOf_cons_invoke, sleepsOf_cons_sleep, hsleeps]
      rw [List.replicate_succ]
      rfl
    · simpa using hresults
    · simpa [decRetry] using hruncount

/-- A terminating dispatcher execution of a registered, admitted task
whose action is in the registry invokes that action at least once. -/
theorem execute_task_has_invoke (A : ActionEnv) (fuel : Nat) (s : SchedulerModule)
    (tid : String) (task : ScheduledTask) (f : Params → ActOutcome)
    (out : SchedulerModule × Option TaskResult × List Ev)
    (hl : lookupTask s.tasks tid = some task)
    (hg : maxRunsReached task = false)
    (hA : A task.action = some f)
    (h : execute_task A fuel s tid = some out) :
    ∃ tm, Ev.invoke tid tm ∈ out.2.2 := by
  cases fuel with
  | zero => simp [execute_task] at h
  | succ n =>
    rw [execute_task, hl] at h
    dsimp only at h
    rw [hg, if_neg Bool.false_ne_true] at h
    cases hdeps : execDeps (execute_task A n) task.dependencies { s with clock := s.clock + 1 } with
    | none => rw [hdeps] at h; cases h
    | some out₁ =>
      obtain ⟨s₁, tr₀⟩ := out₁
      rw [hdeps] at h
      dsimp only at h
      obtain ⟨hp₁, _, _⟩ := execDeps_master (execute_task A n)
        (fun s' d o hh => execute_task_master A n s' d o hh) task.dependencies _ _ hdeps
      cases hl₁ : lookupTask s₁.tasks tid with
      | none =>
        obtain ⟨t', hlt', _⟩ := hp₁.1.2 tid task hl
        rw [hl₁] at hlt'
        cases hlt'
      | some task₁ =>
        rw [hl₁] at h
        dsimp only at h
        obtain ⟨t', hlt', _, hact', _⟩ := hp₁.1.2 tid task hl
        rw [hl₁, Option.some.injEq] at hlt'
        subst hlt'
        rw [show A task₁.action = some f from by rw [hact']; exact hA] at h
        dsimp only at h
        cases hf : f task₁.action_params with
        | ok v =>
          rw [hf] at h
          dsimp only at h
          rw [Option.some.injEq] at h
          subst h
          exact ⟨s₁.tasks, by simp⟩
        | err m =>
          rw [hf] at h
          dsimp only at h
          cases hr : task₁.retry_on_fail && decide (0 < task₁.retry_count) with
          | false =>
            rw [hr, if_neg Bool.false_ne_true, Option.some.injEq] at h
            subst h
            exact ⟨s₁.tasks, by simp⟩
          | true =>
            rw [hr, if_pos rfl] at h
            cases hrec : execute_task A n { s₁ with tasks := updateTask s₁.tasks tid decRetry } tid with
            | none => rw [hrec] at h; cases h
            | some out₃ =>
              obtain ⟨s₃, r₃, tr₃⟩ := out₃
              rw [hrec] at h
              dsimp only at h
              rw [Option.some.injEq] at h
              subst h
              exact ⟨s₁.tasks, by simp⟩

/-- Core of the dependency-ordering property: in any terminating
execution of a task `tid` whose two registered dependencies have not run
and have room under `max_runs`, every recorded invocation of `tid`'s
action sees both dependencies with a set `last_run`. -/
theorem deps_set_at_invoke (A : ActionEnv) (fuel : Nat) (s : SchedulerModule)
    (tid d₁ d₂ : String) (T D1 D2 : ScheduledTask) (f : Params → ActOutcome)
    (out : SchedulerModule × Option TaskResult × List Ev)
    (hlT : lookupTask s.tasks tid = some T)
    (hdepT : T.dependencies = [d₁, d₂])
    (hgT : maxRunsReached T = false)
    (hAT : A T.action = some f)
    (hl1 : lookupTask s.tasks d₁ = some D1) (_hlr1 : D1.last_run = none)
    (hg1 : maxRunsReached D1 = false)
    (hl2 : lookupTask s.tasks d₂ = some D2) (_hlr2 : D2.last_run = none)
    (hg2 : maxRunsReached D2 = false)
    (hout : execute_task A fuel s tid = some out) :
    (∃ tm, Ev.invoke tid tm ∈ out.2.2) ∧
    ∀ tm, Ev.invoke tid tm ∈ out.2.2 →
      ∃ t₁ t₂, lookupTask tm d₁ = some t₁ ∧ t₁.last_run.isSome = true ∧
        lookupTask tm d₂ = some t₂ ∧ t₂.last_run.isSome = true := by
  refine ⟨execute_task_has_invoke A fuel s tid T f out hlT hgT hAT hout, ?_⟩
  intro tm hm
  obtain ⟨_, hinv, _⟩ := execute_task_master A fuel s tid out hout
  obtain ⟨hpres, tx, hltx, hdeps⟩ := hinv tid tm hm
  obtain ⟨t', hlt', _, _, hdep', _, _, _⟩ := hpres.2 tid T hlT
  rw [hltx, Option.some.injEq] at hlt'
  subst hlt'
  have hd1 := hdeps d₁ (by rw [hdep', hdepT]; simp)
  have hd2 := hdeps d₂ (by rw [hdep', hdepT]; simp)
  obtain ⟨u₁, hlu₁, _, _, _, hmax₁, _, hrcm₁⟩ := hpres.2 d₁ D1 hl1
  obtain ⟨u₂, hlu₂, _, _, _, hmax₂, _, hrcm₂⟩ := hpres.2 d₂ D2 hl2
  refine ⟨u₁, u₂, hlu₁, ?_, hlu₂, ?_⟩
  · unfold DepOK at hd1
    rw [hlu₁] at hd1
    rcases hd1 with h | h
    · exact h
    · cases hu : u₁.last_run with
      | some v => simp [hu]
      | none =>
        obtain ⟨hrc_eq, _⟩ := hrcm₁ hu
        exfalso
        unfold maxRunsReached at h hg1
        rw [hmax₁, hrc_eq] at h
        rw [h] at hg1
        cases hg1
  · unfold DepOK at hd2
    rw [hlu₂] at hd2
    rcases hd2 with h | h
    · exact h
    · cases hu : u₂.last_run with
      | some v => simp [hu]
      | none =>
        obtain ⟨hrc_eq, _⟩ := hrcm₂ hu
        exfalso
        unfold maxRunsReached at h hg2
        rw [hmax₂, hrc_eq] at h
        rw [h] at hg2
        cases hg2

/-- The subscriber loop dispatches exactly the registered-and-enabled
subscribers, in order, each with `event_data` stored in its parameters;
a failing subscriber does not stop the loop (the handler outcomes are
arbitrary). -/
theorem emitLoop_fanout (A : ActionEnv) (fuel : Nat) (d : Val) :
    ∀ (subs : List String) (s : SchedulerModule)
      (out : SchedulerModule × List (String × Params)),
      subs.Nodup →
      (∀ tid ∈ subs, ∀ t, lookupTask s.tasks tid = some t → t.dependencies = []) →
      emitLoop A fuel d subs s = some out →
      out.2.map Prod.fst =
        subs.filter (fun tid =>
          match lookupTask s.tasks tid with
          | some t => t.enabled
          | none => false) ∧
      ∀ p ∈ out.2, alookup p.2 "event_data" = some d := by
  intro subs
  induction subs with
  | nil =>
    intro s out hnd hdeps h
    simp only [emitLoop, Option.some.injEq] at h
    subst h
    simp
  | cons tid rest ih =>
    intro s out hnd hdeps h
    rw [emitLoop] at h
    cases hl : lookupTask s.tasks tid with
    | none =>
      rw [hl] at h
      dsimp only at h
      obtain ⟨h1, h2⟩ := ih s out (List.nodup_cons.mp hnd).2
        (fun t ht => hdeps t (List.mem_cons_of_mem tid ht)) h
      refine ⟨?_, h2⟩
      rw [h1, List.filter_cons, if_neg (by rw [hl]; simp)]
    | some t =>
      rw [hl] at h
      dsimp only at h
      cases he : t.enabled with
      | false =>
        rw [he, if_neg Bool.false_ne_true] at h
        obtain ⟨h1, h2⟩ := ih s out (List.nodup_cons.mp hnd).2
          (fun t' ht => hdeps t' (List.mem_cons_of_mem tid ht)) h
        refine ⟨?_, h2⟩
        rw [h1, List.filter_cons, if_neg (by rw [hl]; simp [he])]
      | true =>
        rw [he, if_pos rfl] at h
        cases hexec : execute_task A fuel { s with tasks := updateTask s.tasks tid (fun u => { u with action_params := setKey u.action_params "event_data" d }) } tid with
        | none => rw [hexec] at h; cases h
        | some out₂ =>
          obtain ⟨s₂, r₂, tr₂⟩ := out₂
          rw [hexec] at h
          dsimp only at h
          cases hrest : emitLoop A fuel d rest s₂ with
          | none => rw [hrest] at h; cases h
          | some out₃ =>
            obtain ⟨s₃, ds₃⟩ := out₃
            rw [hrest] at h
            dsimp only at h
            rw [Option.some.injEq] at h
            subst h
            have hloc : ∀ x, x ≠ tid → lookupTask s₂.tasks x = lookupTask s.tasks x := by
              intro x hx
              have hde : ∀ task', lookupTask (updateTask s.tasks tid (fun u => { u with action_params := setKey u.action_params "event_data" d })) tid = some task' → task'.dependencies = [] := by
                intro task' hl'
                rw [lookupTask_updateTask_self, hl] at hl'
                dsimp only [Option.map] at hl'
                rw [Option.some.injEq] at hl'
                subst hl'
                exact hdeps tid (by simp) t hl
              have h1 := execute_task_local A fuel _ tid _ hexec hde x hx
              rw [h1]
              show lookupTask (updateTask s.tasks tid (fun u => { u with action_params := setKey u.action_params "event_data" d })) x = lookupTask s.tasks x
              exact lookupTask_updateTask_ne s.tasks tid x _ hx
            have hdeps₂ : ∀ tid' ∈ rest, ∀ t', lookupTask s₂.tasks tid' = some t' → t'.dependencies = [] := by
              intro tid' hmem t' hl'
              have hne : tid' ≠ tid := by
                intro hh
                exact (List.nodup_cons.mp hnd).1 (hh ▸ hmem)
              rw [hloc tid' hne] at hl'
              exact hdeps tid' (List.mem_cons_of_mem tid hmem) t' hl'
            obtain ⟨h1, h2⟩ := ih s₂ (s₃, ds₃) (List.nodup_cons.mp hnd).2 hdeps₂ hrest
            constructor
            · dsimp only
              rw [List.map_cons, h1, List.filter_cons, if_pos (by rw [hl]; exact he)]
              congr 1
              apply List.filter_congr
              intro x hx
              have hxne : x ≠ tid := by
                intro hh
                exact (List.nodup_cons.mp hnd).1 (hh ▸ hx)
              rw [hloc x hxne]
            · intro p hp
              rcases List.mem_cons.mp hp with rfl | hp'
              · exact alookup_setKey_self t.action_params "event_data" d
              · exact h2 p hp'

/-! ## The claims -/

/-- C1: for a registered task with `retry_on_fail = true` and
`retry_count = k > 0`, with no dependencies and `max_runs` not reached,
whose action raises on every invocation, one dispatcher execution
performs exactly `k` additional attempts after the first failure
(`k + 1` handler invocations in all), suspending for `retry_delay`
before each re-attempt while decrementing `retry_count`, and finalizes
exactly one Failed `TaskResult`, appended once to the result log, with
the task's `retry_count` exhausted to 0. -/
theorem retry_exhaustion (A : ActionEnv) (k fuel : Nat) (s : SchedulerModule)
    (tid : String) (task : ScheduledTask) (f : Params → ActOutcome)
    (hl : lookupTask s.tasks tid = some task)
    (hdeps : task.dependencies = [])
    (hg : maxRunsReached task = false)
    (hro : task.retry_on_fail = true)
    (hrc : task.retry_count = (k : Int))
    (_hk : 0 < k)
    (hA : A task.action = some f)
    (herr : ∀ p, ∃ m, f p = .err m)
    (hres : s.results.length ≤ 999)
    (hfuel : k + 1 ≤ fuel) :
    ∃ s' res tr, execute_task A fuel s tid = some (s', some res, tr) ∧
      res.status = .failed ∧ res.task_id = tid ∧
      countInvokes tr tid = k + 1 ∧
      sleepsOf tr = List.replicate k task.retry_delay ∧
      s'.results = s.results ++ [res] ∧
      ∃ t', lookupTask s'.tasks tid = some t' ∧ t'.retry_count = 0 ∧
        t'.run_count = task.run_count + 1 ∧ t'.last_run.isSome = true :=
  retry_loop_spec A k fuel s tid task f hl hdeps hg hro hrc hA herr hres hfuel

theorem retry_exhaustion_witness :
    lookupTask c1state.tasks "r" = some c1task ∧
    c1task.dependencies = [] ∧ maxRunsReached c1task = false ∧
    c1task.retry_on_fail = true ∧ c1task.retry_count = ((2 : Nat) : Int) ∧
    0 < 2 ∧ actionsEnv c1task.action = some boomHandler ∧
    (∀ p, ∃ m, boomHandler p = .err m) ∧
    c1state.results.length ≤ 999 ∧ 2 + 1 ≤ 4 ∧
    (∃ s' res tr, execute_task actionsEnv 4 c1state "r" = some (s', some res, tr) ∧
      res.status = .failed ∧ res.task_id = "r" ∧
      countInvokes tr "r" = 2 + 1 ∧
      sleepsOf tr = List.replicate 2 c1task.retry_delay ∧
      s'.results = c1state.results ++ [res] ∧
      ∃ t', lookupTask s'.tasks "r" = some t' ∧ t'.retry_count = 0 ∧
        t'.run_count = c1task.run_count + 1 ∧ t'.last_run.isSome = true) :=
  ⟨rfl, rfl, by decide, rfl, by decide, by decide, rfl,
    fun p => ⟨"kaput", rfl⟩, by decide, by decide,
    retry_exhaustion actionsEnv 2 4 c1state "r" c1task boomHandler rfl rfl
      (by decide) rfl (by decide) (by decide) rfl
      (fun p => ⟨"kaput", rfl⟩) (by decide) (by decide)⟩

/-- C2 (counterexample): a task with `max_runs = 1`, after exactly one
completed firing, still has `enabled = true` (with `run_count = 1` and
one result logged) — the code does not clear `enabled` when the N-th
firing completes, only at the start of the next firing. -/
theorem max_runs_disable_counterexample :
    execute_task actionsEnv 2 c2state "a" = some c2out ∧
    c2out.2.1.map (fun r => r.status) = some .completed ∧
    c2out.1.results.length = 1 ∧
    (lookupTask c2out.1.tasks "a").map (fun t => (t.run_count, t.max_runs, t.enabled)) =
      some (1, some 1, true) := by
  decide

/-- C2 (amended): after N completed firings `run_count = N` while
`enabled` stays true; the next firing finds `run_count ≥ max_runs`,
disables the task, and aborts producing no `TaskResult` and leaving
`run_count` (and the result log) unchanged, so no further firing
increments `run_count`. -/
theorem max_runs_guard_aborts (A : ActionEnv) (fuel : Nat) (s : SchedulerModule)
    (tid : String) (task : ScheduledTask)
    (hl : lookupTask s.tasks tid = some task)
    (hg : maxRunsReached task = true) :
    execute_task A (fuel + 1) s tid =
      some ({ s with tasks := updateTask s.tasks tid disableFlag }, none, []) ∧
    ∃ t', lookupTask (updateTask s.tasks tid disableFlag) tid = some t' ∧
      t'.enabled = false ∧ t'.run_count = task.run_count ∧ t'.last_run = task.last_run := by
  constructor
  · rw [execute_task, hl]
    dsimp only
    rw [hg, if_pos rfl]
  · refine ⟨disableFlag task, ?_, rfl, rfl, rfl⟩
    rw [lookupTask_updateTask_self, hl]
    rfl

theorem max_runs_guard_aborts_witness :
    lookupTask c2xstate.tasks "a" = some c2xtask ∧
    maxRunsReached c2xtask = true ∧
    (execute_task actionsEnv 3 c2xstate "a" =
      some ({ c2xstate with tasks := updateTask c2xstate.tasks "a" disableFlag }, none, []) ∧
    ∃ t', lookupTask (updateTask c2xstate.tasks "a" disableFlag) "a" = some t' ∧
      t'.enabled = false ∧ t'.run_count = c2xtask.run_count ∧ t'.last_run = c2xtask.last_run) :=
  ⟨rfl, by decide, max_runs_guard_aborts actionsEnv 2 c2xstate "a" c2xtask rfl (by decide)⟩

/-- C3 (counterexample): executing task `T` with dependencies
`[d1, d2]`, where `d1` is registered and has never run (`last_run`
unset) but already satisfies `run_count ≥ max_runs`: `d1`'s execution
aborts without setting `last_run`, and `T`'s own action is then invoked
while `d1.last_run` is still unset, refuting the claim as stated. -/
theorem deps_unset_at_invoke_counterexample :
    execute_task actionsEnv 6 c3state "T" = some c3out ∧
    (lookupTask c3state.tasks "d1").map (fun t => (t.last_run, t.run_count, t.max_runs)) =
      some (none, 1, some 1) ∧
    (∃ ev ∈ c3out.2.2, badInvoke ev = true) ∧
    (lookupTask c3out.1.tasks "d1").map (fun t => t.last_run) = some none ∧
    (lookupTask c3out.1.tasks "T").map (fun t => t.last_run.isSome) = some true := by
  decide

/-- C3 (amended): for a task `tid` with dependency list `[d₁, d₂]`
where both dependencies are registered, have never run (`last_run`
unset) and have `max_runs` not already reached, any terminating
dispatcher execution of `tid` (with `tid`'s action registered and its
own `max_runs` not reached) invokes `tid`'s action at least once, and
at every such invocation both dependencies already have a non-null
`last_run` — regardless of whether the dependency executions succeeded
or failed. -/
theorem deps_last_run_before_invoke (A : ActionEnv) (fuel : Nat) (s : SchedulerModule)
    (tid d₁ d₂ : String) (T D1 D2 : ScheduledTask) (f : Params → ActOutcome)
    (out : SchedulerModule × Option TaskResult × List Ev)
    (hlT : lookupTask s.tasks tid = some T)
    (hdepT : T.dependencies = [d₁, d₂])
    (hgT : maxRunsReached T = false)
    (hAT : A T.action = some f)
    (hl1 : lookupTask s.tasks d₁ = some D1) (hlr1 : D1.last_run = none)
    (hg1 : maxRunsReached D1 = false)
    (hl2 : lookupTask s.tasks d₂ = some D2) (hlr2 : D2.last_run = none)
    (hg2 : maxRunsReached D2 = false)
    (hout : execute_task A fuel s tid = some out) :
    (∃ tm, Ev.invoke tid tm ∈ out.2.2) ∧
    ∀ tm, Ev.invoke tid tm ∈ out.2.2 →
      ∃ t₁ t₂, lookupTask tm d₁ = some t₁ ∧ t₁.last_run.isSome = true ∧
        lookupTask tm d₂ = some t₂ ∧ t₂.last_run.isSome = true :=
  deps_set_at_invoke A fuel s tid d₁ d₂ T D1 D2 f out hlT hdepT hgT hAT
    hl1 hlr1 hg1 hl2 hlr2 hg2 hout

theorem deps_last_run_before_invoke_witness :
    lookupTask c3wstate.tasks "W" = some c3wTask ∧
    c3wTask.dependencies = ["d1", "d2"] ∧
    maxRunsReached c3wTask = false ∧
    actionsEnv c3wTask.action = some printHandler ∧
    lookupTask c3wstate.tasks "d1" = some c3wd1 ∧ c3wd1.last_run = none ∧
    maxRunsReached c3wd1 = false ∧
    lookupTask c3wstate.tasks "d2" = some c3wd2 ∧ c3wd2.last_run = none ∧
    maxRunsReached c3wd2 = false ∧
    execute_task actionsEnv 6 c3wstate "W" = some c3wout ∧
    ((∃ tm, Ev.invoke "W" tm ∈ c3wout.2.2) ∧
     ∀ tm, Ev.invoke "W" tm ∈ c3wout.2.2 →
       ∃ t₁ t₂, lookupTask tm "d1" = some t₁ ∧ t₁.last_run.isSome = true ∧
         lookupTask tm "d2" = some t₂ ∧ t₂.last_run.isSome = true) :=
  ⟨rfl, rfl, by decide, rfl, rfl, rfl, by decide, rfl, rfl, by decide, rfl,
    deps_last_run_before_invoke actionsEnv 6 c3wstate "W" "d1" "d2"
      c3wTask c3wd1 c3wd2 printHandler c3wout rfl rfl (by decide) rfl
      rfl rfl (by decide) rfl rfl (by decide) rfl⟩

/-- C4: `run_workflow` starts at step 0 and after each step selects
`on_success` when the step's result status is Completed and
`on_failure` otherwise, with "stop"/absent ending the workflow, "next"
advancing by one, an integer jumping to that index, any other string
jumping to the first step with that `name` (no match ending the run);
in particular for steps [A(on_success=1, on_failure="stop"),
B(on_success="stop")], if A completes the run executes A then B and
returns 2 results, and if A fails it returns 1 result.  The second and
third scenarios exercise name-jump, "next" and the missing-name end. -/
theorem run_workflow_branching :
    (∀ aOk bOk : Bool,
      wfResults (run_workflow (abActions aOk bOk) 3 10 c4state "w") =
        if aOk then [("a", .completed), ("b", if bOk then .completed else .failed)]
        else [("a", .failed)]) ∧
    wfResults (run_workflow actionsEnv 3 10 c4nameState "v") =
      [("a", .completed), ("b", .completed)] ∧
    wfResults (run_workflow actionsEnv 3 10 c4noMatchState "u") =
      [("a", .completed)] := by
  refine ⟨?_, ?_, ?_⟩
  · decide
  · decide
  · decide

/-- C5 (counterexample): the save/load round trip is not lossless:
`to_dict` omits `retry_on_fail`, `retry_count`, `retry_delay` and
`next_run`, so `from_dict` restores the dataclass defaults; a task
saved with (false, 5, 10) comes back with (true, 3, 60). -/
theorem round_trip_counterexample :
    ScheduledTask.from_dict (ScheduledTask.to_dict c5task) ≠ some c5task ∧
    (ScheduledTask.from_dict (ScheduledTask.to_dict c5task)).map
      (fun t => (t.retry_on_fail, t.retry_count, t.retry_delay)) = some (true, 3, 60) ∧
    (c5task.retry_on_fail, c5task.retry_count, c5task.retry_delay) = (false, 5, 10) := by
  decide

/-- C5 (amended): `from_dict ∘ to_dict` reproduces every serialized
field (id, name, description, trigger_type, trigger_config, action,
action_params, enabled, created_at, last_run, run_count, max_runs,
tags, dependencies) but resets `retry_on_fail`, `retry_count`,
`retry_delay` to the defaults true/3/60 and `next_run` to None — the
snapshot serialization is lossy exactly on those four fields. -/
theorem round_trip_resets_retry_fields (t : ScheduledTask) :
    ScheduledTask.from_dict (ScheduledTask.to_dict t) =
      some { t with retry_on_fail := true, retry_count := 3, retry_delay := 60, next_run := none } := by
  cases h : t.trigger_type <;>
    simp [ScheduledTask.to_dict, ScheduledTask.from_dict, triggerTypeValue,
      triggerTypeOfValue, h]

/-- C6 (code bug): the claim says `run_workflow`, `emit_event` and the
dispatcher never raise to their caller; but when a workflow step's
`task_id` is not registered (or the task aborts at the `max_runs`
guard), `_execute_task` returns None and `run_workflow` evaluates
`result.status` on None, raising AttributeError to its caller — the
model marks the escaped exception as `WfOut.raised`. -/
theorem run_workflow_raises_on_unknown_task :
    run_workflow actionsEnv 3 10 c6state "g" = WfOut.raised c6state := by
  decide

/-- C7: `emit_event` dispatches exactly the subscribed tasks that exist
and are enabled, one after another in subscription order (subscriber
ids distinct, subscriber tasks dependency-free), storing the event data
under `"event_data"` in each dispatched task's `action_params` before
its execution; a failure of one subscriber does not prevent the
remaining subscribers from executing (the handler outcomes are
arbitrary). -/
theorem emit_event_fanout (A : ActionEnv) (fuel : Nat) (s : SchedulerModule)
    (e : String) (d : Val) (subs : List String)
    (out : SchedulerModule × List (String × Params))
    (hsubs : (alookup s.event_handlers e).getD [] = subs)
    (hnd : subs.Nodup)
    (hdeps : ∀ tid ∈ subs,
      (lookupTask s.tasks tid).map (fun t => t.dependencies) = some [] ∨
      lookupTask s.tasks tid = none)
    (hout : emit_event A fuel s e d = some out) :
    out.2.map Prod.fst =
      subs.filter (fun tid =>
        match lookupTask s.tasks tid with
        | some t => t.enabled
        | none => false) ∧
    ∀ p ∈ out.2, alookup p.2 "event_data" = some d := by
  refine emitLoop_fanout A fuel d subs s out hnd ?_ ?_
  · intro tid hmem t hl
    rcases hdeps tid hmem with h | h
    · rw [hl] at h
      simpa using h
    · rw [hl] at h
      cases h
  · unfold emit_event at hout
    rw [hsubs] at hout
    exact hout

theorem emit_event_fanout_witness :
    (alookup c7state.event_handlers "x").getD [] = ["e1", "e2", "e3"] ∧
    (["e1", "e2", "e3"] : List String).Nodup ∧
    (∀ tid ∈ (["e1", "e2", "e3"] : List String),
      (lookupTask c7state.tasks tid).map (fun t => t.dependencies) = some [] ∨
      lookupTask c7state.tasks tid = none) ∧
    emit_event actionsEnv 4 c7state "x" (.vstr "payload") = some c7out ∧
    (c7out.2.map Prod.fst =
      (["e1", "e2", "e3"] : List String).filter (fun tid =>
        match lookupTask c7state.tasks tid with
        | some t => t.enabled
        | none => false) ∧
     ∀ p ∈ c7out.2, alookup p.2 "event_data" = some (.vstr "payload")) :=
  ⟨rfl, by decide, by decide, rfl,
    emit_event_fanout actionsEnv 4 c7state "x" (.vstr "payload")
      ["e1", "e2", "e3"] c7out rfl (by decide) (by decide) rfl⟩

/-- C8: the result log never exceeds 1000 entries after a dispatcher
execution completes; appending preserves the bound, and whenever an
append makes the history exceed 1000 entries it is trimmed to exactly
the most recent 500 entries (the final 500, order preserved). -/
theorem result_log_bounded (A : ActionEnv) (fuel : Nat) (s : SchedulerModule)
    (tid : String) (out : SchedulerModule × Option TaskResult × List Ev)
    (hout : execute_task A fuel s tid = some out) :
    (∀ rs r, rs.length ≤ 1000 → (appendResult rs r).length ≤ 1000) ∧
    (∀ (rs : List TaskResult) r, rs.length + 1 > 1000 →
      appendResult rs r = (rs ++ [r]).drop (rs.length + 1 - 500) ∧
      (appendResult rs r).length = 500) ∧
    (s.results.length ≤ 1000 → out.1.results.length ≤ 1000) := by
  refine ⟨fun rs r h => appendResult_length_le rs r h, ?_,
    (execute_task_master A fuel s tid out hout).1.2.2.2⟩
  intro rs r h
  have hgt : (rs ++ [r]).length > 1000 := by
    simp only [List.length_append, List.length_singleton]
    omega
  constructor
  · simp only [appendResult]
    rw [if_pos hgt]
    simp
  · simp only [appendResult]
    rw [if_pos hgt]
    simp only [List.length_drop, List.length_append, List.length_singleton]
    omega

theorem result_log_bounded_witness :
    execute_task actionsEnv 2 c2state "a" = some c2out ∧
    c2state.results.length ≤ 1000 ∧ c2out.1.results.length ≤ 1000 :=
  ⟨rfl, by decide,
    (result_log_bounded actionsEnv 2 c2state "a" c2out rfl).2.2 (by decide)⟩

/-- C9: a dispatcher execution of a registered, admitted,
dependency-free task whose action name is not in the registry finalizes
exactly one Failed `TaskResult` whose error message names the unknown
action, and performs no retry: the trace is empty (no handler
invocation and no retry sleep) and `retry_count` is not decremented,
even when `retry_on_fail` is true and `retry_count > 0`. -/
theorem unknown_action_no_retry (A : ActionEnv) (fuel : Nat) (s : SchedulerModule)
    (tid : String) (task : ScheduledTask)
    (hl : lookupTask s.tasks tid = some task)
    (hdeps : task.dependencies = [])
    (hg : maxRunsReached task = false)
    (hA : A task.action = none)
    (hres : s.results.length ≤ 999) :
    ∃ s' res, execute_task A (fuel + 1) s tid = some (s', some res, []) ∧
      res.status = .failed ∧
      res.error = some ("Nieznana akcja: " ++ task.action) ∧
      s'.results = s.results ++ [res] ∧
      ∃ t', lookupTask s'.tasks tid = some t' ∧
        t'.retry_count = task.retry_count ∧
        t'.run_count = task.run_count + 1 ∧ t'.last_run.isSome = true := by
  rw [execute_task_frame A fuel s tid task hl hg hdeps, hA]
  dsimp only
  refine ⟨_, _, rfl, ?_, ?_, ?_, ?_⟩
  · rw [finalizeTask_snd]
    rfl
  · rw [finalizeTask_snd]
    rfl
  · rw [finalizeTask_fst]
    exact appendResult_eq_append s.results _ hres
  · refine ⟨bumpRun s.clock task, ?_, rfl, rfl, rfl⟩
    rw [finalizeTask_lookup_self, show lookupTask ({ s with clock := s.clock + 1 } : SchedulerModule).tasks tid = some task from hl]
    rfl

theorem unknown_action_no_retry_witness :
    lookupTask c9state.tasks "u" = some c9task ∧
    c9task.dependencies = [] ∧ maxRunsReached c9task = false ∧
    actionsEnv c9task.action = none ∧ c9state.results.length ≤ 999 ∧
    (∃ s' res, execute_task actionsEnv 3 c9state "u" = some (s', some res, []) ∧
      res.status = .failed ∧
      res.error = some ("Nieznana akcja: " ++ c9task.action) ∧
      s'.results = c9state.results ++ [res] ∧
      ∃ t', lookupTask s'.tasks "u" = some t' ∧
        t'.retry_count = c9task.retry_count ∧
        t'.run_count = c9task.run_count + 1 ∧ t'.last_run.isSome = true) :=
  ⟨rfl, rfl, by decide, rfl, by decide,
    unknown_action_no_retry actionsEnv 2 c9state "u" c9task rfl rfl
      (by decide) rfl (by decide)⟩

/-- C10: for every task id not present in the store, `remove_task`,
`enable_task` and `disable_task` return False and leave the state
unchanged; for every id present, `remove_task` returns True, afterwards
`get_task` returns None for that id, and every other id's task is
unchanged. -/
theorem task_management_spec (s : SchedulerModule) (tid : String) :
    (get_task s tid = none →
      remove_task s tid = (false, s) ∧ enable_task s tid = (false, s) ∧
      disable_task s tid = (false, s)) ∧
    ∀ t, get_task s tid = some t →
      (remove_task s tid).1 = true ∧
      get_task (remove_task s tid).2 tid = none ∧
      ∀ x, x ≠ tid → get_task (remove_task s tid).2 x = get_task s x := by
  constructor
  · intro h
    have h' : lookupTask s.tasks tid = none := h
    unfold remove_task enable_task disable_task
    rw [h']
    exact ⟨rfl, rfl, rfl⟩
  · intro t h
    have h' : lookupTask s.tasks tid = some t := h
    refine ⟨?_, ?_, ?_⟩
    · unfold remove_task
      rw [h']
    · show lookupTask (remove_task s tid).2.tasks tid = none
      unfold remove_task
      rw [h']
      exact lookupTask_filter_self s.tasks tid
    · intro x hx
      show lookupTask (remove_task s tid).2.tasks x = lookupTask s.tasks x
      unfold remove_task
      rw [h']
      exact lookupTask_filter_ne s.tasks tid x hx

theorem task_management_spec_witness :
    (get_task c10state "zz" = none ∧
      remove_task c10state "zz" = (false, c10state) ∧
      enable_task c10state "zz" = (false, c10state) ∧
      disable_task c10state "zz" = (false, c10state)) ∧
    (get_task c10state "a" = some (mkTask "a" "print") ∧
      (remove_task c10state "a").1 = true ∧
      get_task (remove_task c10state "a").2 "a" = none ∧
      get_task (remove_task c10state "a").2 "b" = get_task c10state "b") :=
  ⟨⟨by decide,
    ((task_management_spec c10state "zz").1 (by decide)).1,
    ((task_management_spec c10state "zz").1 (by decide)).2.1,
    ((task_management_spec c10state "zz").1 (by decide)).2.2⟩,
   ⟨by decide,
    ((task_management_spec c10state "a").2 (mkTask "a" "print") (by decide)).1,
    ((task_management_spec c10state "a").2 (mkTask "a" "print") (by decide)).2.1,
    ((task_management_spec c10state "a").2 (mkTask "a" "print") (by decide)).2.2 "b" (by decide)⟩⟩
